import Mathlib

/-!
Shallow embedding of the DIDS repository's decentralized-identity /
verifiable-credential core (server/services/did.ts, server/services/vc.ts and
the crypto.ts module re-exporting the noble-curves primitives), together with
proofs about the embedded operations.

Modelling conventions:
* JavaScript strings are modelled as `List Char` (`Str`); byte arrays
  (`Uint8Array` / `Buffer`) as `List Nat` with every element `< 256`.
* Randomness (key generation, `uuidv4()`, `new Date()`) is passed in as
  explicit parameters.
* The external noble-curves signing/verification primitives are a parameter
  (`CryptoPrimitives`); functions that can raise a JavaScript exception are
  modelled in `Except Str`.
-/

/-- JavaScript strings are modelled as lists of characters. -/
abbrev Str := List Char

/-- Coerce a Lean string literal into the `Str` model. -/
def str (s : String) : Str := s.data

/-- Hexadecimal value of one character, as used by `Buffer.from(_, 'hex')`. -/
def hexVal (c : Char) : Option Nat :=
  if '0' ≤ c ∧ c ≤ '9' then some (c.toNat - '0'.toNat)
  else if 'a' ≤ c ∧ c ≤ 'f' then some (c.toNat - 'a'.toNat + 10)
  else if 'A' ≤ c ∧ c ≤ 'F' then some (c.toNat - 'A'.toNat + 10)
  else none

/-- Model of `Buffer.from(hex, 'hex')`: consume pairs of hex digits, stopping
at the first pair that is not valid hexadecimal (Node truncates there). -/
def hexDecode : Str → List Nat
  | c1 :: c2 :: rest =>
    match hexVal c1, hexVal c2 with
    | some h, some l => (16 * h + l) :: hexDecode rest
    | _, _ => []
  | _ => []

/-- Model of `new TextEncoder().encode(s)`. The embedding maps each character
to its code point, which agrees with UTF-8 byte-for-byte on the ASCII
strings the credential pipeline produces. -/
def utf8Bytes (s : Str) : List Nat := s.map Char.toNat

/-- Count of leading zero bytes, as used by the base58btc encoder. -/
def leadingZeros : List Nat → Nat
  | [] => 0
  | 0 :: bs => leadingZeros bs + 1
  | _ :: _ => 0

/-- Big-endian byte-string value (the big-number a base-x encoder works on). -/
def bytesToNat (bs : List Nat) : Nat := Nat.ofDigits 256 bs.reverse

/-- Fueled little-endian base-`b` digit expansion. Structurally recursive so
that the kernel can evaluate it on concrete inputs. -/
def digitsFuel (b : Nat) : Nat → Nat → List Nat
  | 0, _ => []
  | fuel + 1, n => if n = 0 then [] else n % b :: digitsFuel b fuel (n / b)

/-- Little-endian base-`b` digits of `n` (kernel-computable). -/
def digitsLE (b n : Nat) : List Nat := digitsFuel b n n

theorem digitsFuel_eq_digits (b : Nat) (hb : 2 ≤ b) :
    ∀ fuel n, n ≤ fuel → digitsFuel b fuel n = Nat.digits b n := by
  intro fuel
  induction fuel with
  | zero =>
    intro n hn
    interval_cases n
    simp [digitsFuel]
  | succ f ih =>
    intro n hn
    by_cases h0 : n = 0
    · simp [digitsFuel, h0]
    · have hpos : 0 < n := Nat.pos_of_ne_zero h0
      rw [digitsFuel, if_neg h0, Nat.digits_def' hb hpos]
      congr 1
      apply ih
      have hdiv : n / b < n := Nat.div_lt_self hpos (by omega)
      omega

theorem digitsLE_eq_digits (b n : Nat) (hb : 2 ≤ b) :
    digitsLE b n = Nat.digits b n :=
  digitsFuel_eq_digits b hb n n (le_refl n)

/-- The base58btc (Bitcoin) alphabet used by the multiformats library. -/
def b58Alphabet : List Char :=
  (str "123456789ABCDEFGHJKLMNPQRSTUVWXYZabcdefghijkmnopqrstuvwxyz")

/-- Digit value (0–57) to base58 character. -/
def b58Char (d : Nat) : Char := b58Alphabet.getD d '?'

/-- Base58 character back to its digit value; `none` for a character outside
the alphabet (the multiformats decoder throws there). -/
def b58Val (c : Char) : Option Nat :=
  b58Alphabet.indexOf? c

/-- Base58 digit string of a byte string: one zero digit per leading zero
byte, then the big-endian base-58 digits of the value (the base-x algorithm
used by multiformats produces exactly this). -/
def base58Digits (bs : List Nat) : List Nat :=
  List.replicate (leadingZeros bs) 0 ++ (digitsLE 58 (bytesToNat bs)).reverse

/-- Raw base58btc encoding (character string, no multibase selector). -/
def base58Chars (bs : List Nat) : Str := (base58Digits bs).map b58Char

/-- Model of `base58btc.encode` from the multiformats package: the multibase
selector character z followed by the base58 digits. -/
def base58btcEncode (bs : List Nat) : Str := 'z' :: base58Chars bs

/-- Character-by-character strict base58 digit decoding: the whole string
must consist of alphabet characters (the multiformats decoder throws on any
other character). -/
def decodeB58Digits : Str → Option (List Nat)
  | [] => some []
  | c :: rest =>
    match b58Val c, decodeB58Digits rest with
    | some d, some ds => some (d :: ds)
    | _, _ => none

/-- Inverse of `base58Chars`, recovering the leading zero bytes and then the
big-endian bytes of the remaining value. -/
def base58Decode (s : Str) : Option (List Nat) :=
  (decodeB58Digits s).map fun ds =>
    List.replicate (leadingZeros ds) 0 ++
      (digitsLE 256 (Nat.ofDigits 58 ds.reverse)).reverse

/-- Bytes with the leading zero bytes removed. -/
def stripZeros : List Nat → List Nat
  | [] => []
  | 0 :: bs => stripZeros bs
  | (b + 1) :: bs => (b + 1) :: bs

theorem b58_table : ∀ d < 58, b58Val (b58Char d) = some d := by decide

theorem decodeB58Digits_map_b58Char :
    ∀ l : List Nat, (∀ d ∈ l, d < 58) → decodeB58Digits (l.map b58Char) = some l := by
  intro l
  induction l with
  | nil => intro _; rfl
  | cons a t ih =>
    intro h
    have ha : a < 58 := h a (by simp)
    have ht := ih fun d hd => h d (by simp [hd])
    simp only [List.map_cons, decodeB58Digits, b58_table a ha, ht]

theorem leadingZeros_replicate_append (z : Nat) (l : List Nat) :
    leadingZeros (List.replicate z 0 ++ l) = z + leadingZeros l := by
  induction z with
  | zero => simp
  | succ n ih =>
    have h1 : List.replicate (n + 1) 0 ++ l = 0 :: (List.replicate n 0 ++ l) := by
      rw [List.replicate_succ, List.cons_append]
    rw [h1, show leadingZeros (0 :: (List.replicate n 0 ++ l)) =
      leadingZeros (List.replicate n 0 ++ l) + 1 from rfl, ih]
    omega

theorem replicate_leadingZeros_append_stripZeros :
    ∀ bs : List Nat, List.replicate (leadingZeros bs) 0 ++ stripZeros bs = bs
  | [] => rfl
  | 0 :: bs => by
    have h := replicate_leadingZeros_append_stripZeros bs
    rw [show leadingZeros (0 :: bs) = leadingZeros bs + 1 from rfl,
      show stripZeros (0 :: bs) = stripZeros bs from rfl,
      List.replicate_succ, List.cons_append, h]
  | (b + 1) :: bs => rfl

theorem stripZeros_shape :
    ∀ bs : List Nat, stripZeros bs = [] ∨ ∃ c t, stripZeros bs = (c + 1) :: t
  | [] => Or.inl rfl
  | 0 :: bs => stripZeros_shape bs
  | (b + 1) :: bs => Or.inr ⟨b, bs, rfl⟩

theorem leadingZeros_eq_zero (l : List Nat)
    (h : ∀ hl : l ≠ [], l.head hl ≠ 0) : leadingZeros l = 0 := by
  cases l with
  | nil => rfl
  | cons c t =>
    cases c with
    | zero => exact absurd rfl (h (List.cons_ne_nil 0 t))
    | succ b => rfl

theorem ofDigits_replicate_zero (b : Nat) :
    ∀ z, Nat.ofDigits b (List.replicate z 0) = 0
  | 0 => rfl
  | z + 1 => by
    simp [List.replicate_succ, Nat.ofDigits_cons, ofDigits_replicate_zero b z]

theorem ofDigits_append_replicate_zero (b : Nat) (l : List Nat) (z : Nat) :
    Nat.ofDigits b (l ++ List.replicate z 0) = Nat.ofDigits b l := by
  rw [Nat.ofDigits_append, ofDigits_replicate_zero, mul_zero, add_zero]

theorem stripZeros_subset (bs : List Nat) : ∀ x ∈ stripZeros bs, x ∈ bs := by
  intro x hx
  have h := replicate_leadingZeros_append_stripZeros bs
  rw [← h]
  exact List.mem_append.mpr (Or.inr hx)

theorem bytesToNat_eq_stripZeros (bs : List Nat) :
    bytesToNat bs = Nat.ofDigits 256 (stripZeros bs).reverse := by
  unfold bytesToNat
  conv_lhs => rw [← replicate_leadingZeros_append_stripZeros bs]
  rw [List.reverse_append, List.reverse_replicate, ofDigits_append_replicate_zero]

theorem digits_bytesToNat (bs : List Nat) (h : ∀ x ∈ bs, x < 256) :
    (Nat.digits 256 (bytesToNat bs)).reverse = stripZeros bs := by
  rw [bytesToNat_eq_stripZeros]
  rcases stripZeros_shape bs with hs | ⟨c, t, hs⟩
  · rw [hs]
    simp
  · have hbound : ∀ x ∈ (stripZeros bs).reverse, x < 256 := by
      intro x hx
      exact h x (stripZeros_subset bs x (List.mem_reverse.mp hx))
    have hne : (stripZeros bs).reverse ≠ [] := by
      rw [hs]; simp
    have hlast : ∀ hh : (stripZeros bs).reverse ≠ [],
        (stripZeros bs).reverse.getLast hh ≠ 0 := by
      intro hh
      have h1 : (stripZeros bs).reverse.getLast? = some (c + 1) := by
        rw [List.getLast?_reverse, hs]
        rfl
      have h2 := List.getLast?_eq_getLast (stripZeros bs).reverse hh
      rw [h1] at h2
      have h3 := Option.some.inj h2
      omega
    rw [Nat.digits_ofDigits 256 (by norm_num) _ hbound hlast, List.reverse_reverse]

theorem base58_roundtrip (bs : List Nat) (h : ∀ x ∈ bs, x < 256) :
    base58Decode (base58Chars bs) = some bs := by
  unfold base58Chars base58Decode base58Digits
  rw [digitsLE_eq_digits 58 (bytesToNat bs) (by norm_num)]
  have hD : ∀ d ∈ List.replicate (leadingZeros bs) 0 ++
      (Nat.digits 58 (bytesToNat bs)).reverse, d < 58 := by
    intro d hd
    rcases List.mem_append.mp hd with h1 | h2
    · have := List.eq_of_mem_replicate h1
      omega
    · exact Nat.digits_lt_base (by norm_num) (List.mem_reverse.mp h2)
  rw [decodeB58Digits_map_b58Char _ hD, Option.map_some']
  have hE0 : leadingZeros (Nat.digits 58 (bytesToNat bs)).reverse = 0 := by
    by_cases hn0 : bytesToNat bs = 0
    · rw [hn0]
      simp [leadingZeros]
    · apply leadingZeros_eq_zero
      intro hl
      have h1 : (Nat.digits 58 (bytesToNat bs)).reverse.head? =
          some ((Nat.digits 58 (bytesToNat bs)).getLast
            (Nat.digits_ne_nil_iff_ne_zero.mpr hn0)) := by
        rw [List.head?_reverse, List.getLast?_eq_getLast]
      have h2 := List.head?_eq_head hl
      rw [h1] at h2
      have h3 := Option.some.inj h2
      have h4 := Nat.getLast_digit_ne_zero 58 hn0
      omega
  have hlz : leadingZeros (List.replicate (leadingZeros bs) 0 ++
      (Nat.digits 58 (bytesToNat bs)).reverse) = leadingZeros bs := by
    rw [leadingZeros_replicate_append, hE0]
    omega
  have hof : Nat.ofDigits 58 (List.replicate (leadingZeros bs) 0 ++
      (Nat.digits 58 (bytesToNat bs)).reverse).reverse = bytesToNat bs := by
    rw [List.reverse_append, List.reverse_replicate, ofDigits_append_replicate_zero,
      List.reverse_reverse, Nat.ofDigits_digits]
  rw [hlz, hof, digitsLE_eq_digits 256 (bytesToNat bs) (by norm_num),
    digits_bytesToNat bs h, replicate_leadingZeros_append_stripZeros]

/-- Encoding to base58 characters is injective on byte strings. -/
theorem base58Chars_injective (bs1 bs2 : List Nat)
    (h1 : ∀ x ∈ bs1, x < 256) (h2 : ∀ x ∈ bs2, x < 256)
    (he : base58Chars bs1 = base58Chars bs2) : bs1 = bs2 := by
  have r1 := base58_roundtrip bs1 h1
  have r2 := base58_roundtrip bs2 h2
  rw [he, r2] at r1
  exact (Option.some.inj r1).symm

/-- The standard base64 alphabet, as used by `Buffer.toString('base64')`. -/
def b64Alphabet : List Char :=
  (str "ABCDEFGHIJKLMNOPQRSTUVWXYZabcdefghijklmnopqrstuvwxyz0123456789+/")

/-- 6-bit value (0–63) to base64 character. -/
def b64Char (d : Nat) : Char := b64Alphabet.getD d '?'

/-- Base64 character back to its 6-bit value; `none` for padding or any
other character (Node's base64 decoder skips those). -/
def b64Val (c : Char) : Option Nat := b64Alphabet.indexOf? c

/-- 6-bit groups of a byte string (the core of base64 encoding). -/
def bytesToSextets : List Nat → List Nat
  | a :: b :: c :: rest =>
    a / 4 :: (a % 4 * 16 + b / 16) :: (b % 16 * 4 + c / 64) :: c % 64 ::
      bytesToSextets rest
  | [a, b] => [a / 4, a % 4 * 16 + b / 16, b % 16 * 4]
  | [a] => [a / 4, a % 4 * 16]
  | [] => []

/-- Model of `Buffer.from(bytes).toString('base64')`: 6-bit groups mapped
through the standard alphabet, padded with `=` to a multiple of four
characters. -/
def base64Encode (bs : List Nat) : Str :=
  (bytesToSextets bs).map b64Char ++ List.replicate ((3 - bs.length % 3) % 3) '='

/-- Reassemble bytes from 6-bit groups; a dangling lone sextet is dropped,
as Node's base64 decoder does. -/
def sextetsToBytes : List Nat → List Nat
  | d0 :: d1 :: d2 :: d3 :: rest =>
    (d0 * 4 + d1 / 16) :: (d1 % 16 * 16 + d2 / 4) :: (d2 % 4 * 64 + d3) ::
      sextetsToBytes rest
  | [d0, d1, d2] => [d0 * 4 + d1 / 16, d1 % 16 * 16 + d2 / 4]
  | [d0, d1] => [d0 * 4 + d1 / 16]
  | [_] => []
  | [] => []

/-- Model of `Buffer.from(s, 'base64')`: keep only alphabet characters
(padding and anything invalid is skipped) and reassemble the bytes. -/
def base64Decode (s : Str) : List Nat :=
  sextetsToBytes (s.filterMap b64Val)

theorem b64_table : ∀ d < 64, b64Val (b64Char d) = some d := by decide

theorem bytesToSextets_lt :
    ∀ bs : List Nat, (∀ b ∈ bs, b < 256) → ∀ d ∈ bytesToSextets bs, d < 64
  | [], _ => by simp [bytesToSextets]
  | [a], h => by
    have ha : a < 256 := h a (by simp)
    simp only [bytesToSextets, List.mem_cons, List.not_mem_nil, or_false]
    rintro d (rfl | rfl) <;> omega
  | [a, b], h => by
    have ha : a < 256 := h a (by simp)
    have hb : b < 256 := h b (by simp)
    simp only [bytesToSextets, List.mem_cons, List.not_mem_nil, or_false]
    rintro d (rfl | rfl | rfl) <;> omega
  | a :: b :: c :: rest, h => by
    have ha : a < 256 := h a (by simp)
    have hb : b < 256 := h b (by simp)
    have hc : c < 256 := h c (by simp)
    have ih := bytesToSextets_lt rest fun x hx => h x (by simp [hx])
    simp only [bytesToSextets, List.mem_cons]
    rintro d (rfl | rfl | rfl | rfl | hd)
    · omega
    · omega
    · omega
    · omega
    · exact ih d hd

theorem filterMap_b64Val_map_b64Char :
    ∀ l : List Nat, (∀ d ∈ l, d < 64) → (l.map b64Char).filterMap b64Val = l := by
  intro l
  induction l with
  | nil => intro _; rfl
  | cons a t ih =>
    intro h
    have ha : a < 64 := h a (by simp)
    have ht := ih fun d hd => h d (by simp [hd])
    simp only [List.map_cons, List.filterMap_cons, b64_table a ha, ht]

theorem filterMap_b64Val_pad :
    ∀ z : Nat, (List.replicate z '=').filterMap b64Val = []
  | 0 => rfl
  | z + 1 => by
    rw [List.replicate_succ, List.filterMap_cons]
    have : b64Val '=' = none := by decide
    rw [this, filterMap_b64Val_pad z]

theorem sextets_bytes_roundtrip :
    ∀ bs : List Nat, (∀ b ∈ bs, b < 256) → sextetsToBytes (bytesToSextets bs) = bs
  | [], _ => rfl
  | [a], h => by
    have ha : a < 256 := h a (by simp)
    simp only [bytesToSextets, sextetsToBytes, List.cons.injEq, and_true]
    omega
  | [a, b], h => by
    have ha : a < 256 := h a (by simp)
    have hb : b < 256 := h b (by simp)
    simp only [bytesToSextets, sextetsToBytes, List.cons.injEq, and_true]
    constructor
    · omega
    · omega
  | a :: b :: c :: rest, h => by
    have ha : a < 256 := h a (by simp)
    have hb : b < 256 := h b (by simp)
    have hc : c < 256 := h c (by simp)
    have ih := sextets_bytes_roundtrip rest fun x hx => h x (by simp [hx])
    simp only [bytesToSextets, sextetsToBytes, List.cons.injEq]
    refine ⟨by omega, by omega, by omega, ih⟩

theorem base64_roundtrip (bs : List Nat) (h : ∀ b ∈ bs, b < 256) :
    base64Decode (base64Encode bs) = bs := by
  unfold base64Encode base64Decode
  rw [List.filterMap_append, filterMap_b64Val_map_b64Char _ (bytesToSextets_lt bs h),
    filterMap_b64Val_pad, List.append_nil, sextets_bytes_roundtrip bs h]

/-- The external noble-curves primitives, as a parameter of the embedding.
`ed25519Verify` and `secp256k1Verify` live in `Except` because a JavaScript
library call can raise; `secp256k1Sign` returns the `(r, s)` pair carried by
the library's Signature object. -/
structure CryptoPrimitives where
  ed25519Sign : List Nat → List Nat → List Nat
  ed25519Verify : List Nat → List Nat → List Nat → Except Str Bool
  secp256k1Sign : List Nat → List Nat → Nat × Nat
  secp256k1Verify : List Nat → List Nat → List Nat → Except Str Bool

/-- Big-endian bytes of `v`, left-padded with zeros to `w` bytes (noble's
numberToBytesBE). -/
def natToBytesBE (w v : Nat) : List Nat :=
  List.replicate (w - (digitsLE 256 v).length) 0 ++ (digitsLE 256 v).reverse

/-- Model of noble's `Signature.toCompactRawBytes`: the 32-byte big-endian
`r` followed by the 32-byte big-endian `s`. -/
def toCompactRawBytes (rs : Nat × Nat) : List Nat :=
  natToBytesBE 32 rs.1 ++ natToBytesBE 32 rs.2

/-- crypto.ts `signEd25519`. -/
def signEd25519 (C : CryptoPrimitives) (message privateKey : List Nat) : List Nat :=
  C.ed25519Sign message privateKey

/-- crypto.ts `verifyEd25519`: returns `ed25519.verify(...)` directly, with
no try/catch, so a library exception propagates to the caller. -/
def verifyEd25519 (C : CryptoPrimitives) (signature message publicKey : List Nat) :
    Except Str Bool :=
  C.ed25519Verify signature message publicKey

/-- crypto.ts `signSecp256k1`: `secp256k1.sign(...).toCompactRawBytes()`. -/
def signSecp256k1 (C : CryptoPrimitives) (message privateKey : List Nat) : List Nat :=
  toCompactRawBytes (C.secp256k1Sign message privateKey)

/-- crypto.ts `verifySecp256k1`: wraps the library call in try/catch and
turns any exception into `false`. -/
def verifySecp256k1 (C : CryptoPrimitives) (signature message publicKey : List Nat) :
    Except Str Bool :=
  match C.secp256k1Verify signature message publicKey with
  | .ok b => .ok b
  | .error _ => .ok false

/-- Model of the input validation of noble's `ed25519.verify` (the function
crypto.ts re-exports without any catch): `ensureBytes('signature', sig, 64)`
raises before the library's internal try/catch whenever the signature is not
exactly 64 bytes, while a public key that fails to decode is caught
internally and yields `false`. The group-equation check on validated input
is abstracted as `core`. -/
def nobleEd25519Verify (core : List Nat → List Nat → List Nat → Bool)
    (sig msg pk : List Nat) : Except Str Bool :=
  if sig.length = 64 then .ok (core sig msg pk)
  else .error (str "signature expected 64 bytes")

/-- A concrete instantiation of the primitives, used to evaluate the
embedding on closed inputs: signing ignores the key material and
verification accepts exactly the signatures that signing produces. -/
def trivialCrypto : CryptoPrimitives where
  ed25519Sign := fun _ _ => List.replicate 64 0
  ed25519Verify := fun sig _ _ => .ok (decide (sig = List.replicate 64 0))
  secp256k1Sign := fun _ _ => (1, 2)
  secp256k1Verify := fun sig _ _ => .ok (decide (sig = toCompactRawBytes (1, 2)))

/-- The proof block of a verifiable credential (vc.ts), fields in source
order. A missing `proofValue` is modelled as the empty string (both are
falsy where the source tests it). -/
structure Proof where
  type : Str
  created : Str
  verificationMethod : Str
  proofPurpose : Str
  proofValue : Str
  deriving DecidableEq, Repr

/-- A verifiable-credential object as vc.ts manipulates it. Fields are
`Option` to model absent JSON keys; the field order is the insertion order
used at issuance, which is also the serialization order. `contextField`
stands for the source's `"@context"` key (not a valid Lean identifier), and
`credentialSubject` is an ordered association list with string values, as a
JavaScript object. -/
structure Credential where
  contextField : Option (List Str)
  id : Option Str
  type : Option (List Str)
  issuer : Option Str
  issuanceDate : Option Str
  credentialSubject : Option (List (Str × Str))
  proof : Option Proof
  deriving DecidableEq, Repr

/-- JSON string escaping (quote and backslash; the credential pipeline's
strings contain no control characters). -/
def jsonEscape (s : Str) : Str :=
  s.flatMap fun c => if c = '"' ∨ c = '\\' then ['\\', c] else [c]

/-- A JSON string literal. -/
def jsonStr (s : Str) : Str := '"' :: (jsonEscape s ++ ['"'])

/-- A JSON array of string literals. -/
def jsonStrArray (xs : List Str) : Str :=
  '[' :: (List.intercalate [','] (xs.map jsonStr) ++ [']'])

/-- One serialized JSON object member. -/
def jsonMember (k : Str) (v : Str) : Str := jsonStr k ++ ':' :: v

/-- A JSON object with string values, members in association-list order. -/
def jsonObj (fields : List (Str × Str)) : Str :=
  '{' :: (List.intercalate [','] (fields.map fun kv => jsonMember kv.1 (jsonStr kv.2))
    ++ ['}'])

/-- Model of `JSON.stringify` on a credential with its `proof` key removed —
the exact characters signed at issuance and recomputed at verification.
Members appear in the credential's field order; absent (undefined) fields
are omitted, as stringify does. -/
def stringifyCore (c : Credential) : Str :=
  '{' :: (List.intercalate [','] (List.filterMap id [
    c.contextField.map fun v => jsonMember (str "@context") (jsonStrArray v),
    c.id.map fun v => jsonMember (str "id") (jsonStr v),
    c.type.map fun v => jsonMember (str "type") (jsonStrArray v),
    c.issuer.map fun v => jsonMember (str "issuer") (jsonStr v),
    c.issuanceDate.map fun v => jsonMember (str "issuanceDate") (jsonStr v),
    c.credentialSubject.map fun v => jsonMember (str "credentialSubject") (jsonObj v)])
    ++ ['}'])

/-- First-match lookup in a JavaScript-object association list. -/
def assocGet (k : Str) : List (Str × Str) → Option Str
  | [] => none
  | (k1, v) :: rest => if k1 = k then some v else assocGet k rest

/-- JavaScript property assignment: update an existing key in place (keeping
its position) or append a new one. -/
def setKey (k v : Str) : List (Str × Str) → List (Str × Str)
  | [] => [(k, v)]
  | (k1, v1) :: rest =>
    if k1 = k then (k1, v) :: rest else (k1, v1) :: setKey k v rest

/-- Object spread of `updates` over `base`, one property assignment per
entry, in order. -/
def spreadInto (base : List (Str × Str)) : List (Str × Str) → List (Str × Str)
  | [] => base
  | (k, v) :: rest => spreadInto (setKey k v base) rest

/-- JavaScript template interpolation of `s.split(':')[i]`: the element, or
the string "undefined" when the index is out of range. -/
def splitPart (s : Str) (i : Nat) : Str :=
  (s.splitOn ':').getD i (str "undefined")

/-- The unsigned credential shell built by `issueVerifiableCredential` (the
source's `credential` local, of type `Omit<VerifiableCredential, 'proof'>`). -/
def unsignedCredential (now uuid issuerDid subjectDid credentialType : Str)
    (claims : List (Str × Str)) : Credential :=
  { contextField := some [str "https://www.w3.org/2018/credentials/v1"]
    id := some (str "urn:uuid:" ++ uuid)
    type := some [str "VerifiableCredential", credentialType]
    issuer := some issuerDid
    issuanceDate := some now
    credentialSubject := some (spreadInto [(str "id", subjectDid)] claims)
    proof := none }

/-- vc.ts `issueVerifiableCredential`. The wall clock
(`new Date().toISOString()`) and the generated uuid are the parameters `now`
and `uuid`; the crypto library is the parameter `C`. Parameter order after
that follows the source. -/
def issueVerifiableCredential (C : CryptoPrimitives) (now uuid : Str)
    (issuerDid subjectDid credentialType : Str) (claims : List (Str × Str))
    (privateKey : Str) (keyType : Str) : Credential :=
  let credential : Credential :=
    unsignedCredential now uuid issuerDid subjectDid credentialType claims
  let message := utf8Bytes (stringifyCore credential)
  let privateKeyBytes := hexDecode privateKey
  let sigAndType : List Nat × Str :=
    if keyType = str "ed25519" then
      (signEd25519 C message privateKeyBytes, str "Ed25519Signature2020")
    else
      (signSecp256k1 C message privateKeyBytes, str "EcdsaSecp256k1Signature2019")
  { credential with
    proof := some {
      type := sigAndType.2
      created := now
      verificationMethod := issuerDid ++ '#' :: splitPart issuerDid 2
      proofPurpose := str "assertionMethod"
      proofValue := 'z' :: base64Encode sigAndType.1 } }

/-- The result object of vc.ts `verifyVerifiableCredential`. `subject` and
`issuanceDate` are `Option` because the success path passes the raw
property through, which can be absent; `issuer` is always a string (the
success path's raw `credential.issuer` is present and non-empty there by
the structural check, hence equal to the `|| ""` default used elsewhere). -/
structure VCResult where
  verified : Bool
  issuer : Str
  subject : Option Str
  issuanceDate : Option Str
  errors : Option (List Str)
  deriving DecidableEq, Repr

/-- The structural check of `verifyVerifiableCredential`: `@context`,
`type`, `issuer` and `credentialSubject` must all be truthy. An empty
issuer string is falsy; empty arrays and empty objects are truthy. -/
def credStructBad (c : Credential) : Bool :=
  !(c.contextField.isSome && c.type.isSome &&
    (match c.issuer with | none => false | some s => !s.isEmpty) &&
    c.credentialSubject.isSome)

/-- The proof check: `proof` present with a truthy (non-empty) `proofValue`. -/
def credProofBad (c : Credential) : Bool :=
  match c.proof with
  | none => true
  | some p => p.proofValue.isEmpty

/-- The early-return and catch-path result shape: `verified=false` plus
best-effort extraction with JavaScript's `|| ""` defaults. -/
def bestEffortResult (c : Credential) (errs : List Str) : VCResult :=
  { verified := false
    issuer := c.issuer.getD (str "")
    subject := some ((c.credentialSubject.bind (assocGet (str "id"))).getD (str ""))
    issuanceDate := some (c.issuanceDate.getD (str ""))
    errors := some errs }

/-- vc.ts `verifyVerifiableCredential`. The source's outer try/catch is
modelled by catching the `Except` error of the signature branch (the only
exception source in the embedded pipeline) and folding it into the
"Verification failed" result. -/
def verifyVerifiableCredential (C : CryptoPrimitives) (credential : Credential)
    (issuerPublicKey : Str) (keyType : Str) : VCResult :=
  let errors1 :=
    (if credStructBad credential then [str "Invalid credential structure"] else []) ++
    (if credProofBad credential then [str "Missing or invalid proof"] else [])
  if errors1 ≠ [] then bestEffortResult credential errors1
  else
    match credential.proof with
    | none =>
      -- unreachable: `credProofBad` would have forced the early return
      bestEffortResult credential [str "Missing or invalid proof"]
    | some proof =>
      let message := utf8Bytes (stringifyCore { credential with proof := none })
      let publicKeyBytes := hexDecode issuerPublicKey
      let signatureBytes := base64Decode (proof.proofValue.drop 1)
      let outcome : Except Str (Bool × List Str) :=
        if keyType = str "ed25519" ∧ proof.type = str "Ed25519Signature2020" then
          (verifyEd25519 C signatureBytes message publicKeyBytes).map fun v => (v, [])
        else if keyType = str "secp256k1" ∧
            proof.type = str "EcdsaSecp256k1Signature2019" then
          (verifySecp256k1 C signatureBytes message publicKeyBytes).map fun v => (v, [])
        else
          .ok (false, [str "Unsupported signature type or key mismatch"])
      match outcome with
      | .error e => bestEffortResult credential [str "Verification failed: " ++ e]
      | .ok vErrs =>
        let errors := vErrs.2 ++ (if vErrs.1 then [] else [str "Invalid signature"])
        { verified := vErrs.1 && decide (errors = [])
          issuer := credential.issuer.getD (str "")
          subject := credential.credentialSubject.bind (assocGet (str "id"))
          issuanceDate := credential.issuanceDate
          errors := if errors = [] then none else some errors }

/-- A verification-method entry of a DID document (did.ts). -/
structure VerificationMethod where
  id : Str
  type : Str
  controller : Str
  publicKeyMultibase : Str
  deriving DecidableEq, Repr

/-- A DID document as did.ts builds it (`contextField` stands for the
source's `"@context"` key). -/
structure DIDDocument where
  contextField : List Str
  id : Str
  verificationMethod : List VerificationMethod
  authentication : List Str
  assertionMethod : List Str
  capabilityInvocation : List Str
  capabilityDelegation : List Str
  deriving DecidableEq, Repr

/-- Result of did.ts `generateDidKey`. Key generation itself is external
randomness, so the freshly generated public key bytes are a parameter. -/
structure DidKeyResult where
  did : Str
  publicKeyMultibase : Str
  didDocument : DIDDocument
  deriving DecidableEq, Repr

/-- The two-byte multicodec tag did.ts puts in front of the public key:
0xED 0x01 when the key type is ed25519, 0xE7 0x01 in the source's else
branch. -/
def multicodecTag (keyType : Str) : List Nat :=
  if keyType = str "ed25519" then [0xed, 0x01] else [0xe7, 0x01]

/-- did.ts `generateDidKey`, with the generated key pair's public key bytes
supplied as `publicKey`. The source strips the multibase selector returned
by `base58btc.encode` with `substring(1)` and puts its own z back. -/
def generateDidKey (keyType : Str) (publicKey : List Nat) : DidKeyResult :=
  let publicKeyBytes := multicodecTag keyType ++ publicKey
  let publicKeyMultibase := 'z' :: (base58btcEncode publicKeyBytes).drop 1
  let did := str "did:key:" ++ publicKeyMultibase
  let vmId := did ++ '#' :: publicKeyMultibase
  { did := did
    publicKeyMultibase := publicKeyMultibase
    didDocument := {
      contextField := [str "https://www.w3.org/ns/did/v1"]
      id := did
      verificationMethod := [{
        id := vmId
        type := if keyType = str "ed25519" then str "Ed25519VerificationKey2020"
          else str "EcdsaSecp256k1VerificationKey2019"
        controller := did
        publicKeyMultibase := publicKeyMultibase }]
      authentication := [vmId]
      assertionMethod := [vmId]
      capabilityInvocation := [vmId]
      capabilityDelegation := [vmId] } }

/-- Decoder for the multibase portion of a did:key DID, per the encoding the
source uses: drop the multibase selector, base58-decode, drop the two
multicodec bytes. -/
def didKeyDecode (multibase : Str) : Option (List Nat) :=
  (base58Decode (multibase.drop 1)).map fun bs => bs.drop 2

theorem verifyVC_early (C : CryptoPrimitives) (c : Credential) (pk kt : Str)
    (h : credStructBad c = true ∨ credProofBad c = true) :
    verifyVerifiableCredential C c pk kt =
      bestEffortResult c
        ((if credStructBad c then [str "Invalid credential structure"] else []) ++
          (if credProofBad c then [str "Missing or invalid proof"] else [])) := by
  have hne : ((if credStructBad c then [str "Invalid credential structure"] else []) ++
      (if credProofBad c then [str "Missing or invalid proof"] else [])) ≠ [] := by
    rcases h with h | h <;> simp [h]
  simp only [verifyVerifiableCredential]
  rw [if_pos hne]

theorem verifyVC_mismatch (C : CryptoPrimitives) (c : Credential) (pk kt : Str)
    (p : Proof) (hsb : credStructBad c = false) (hpb : credProofBad c = false)
    (hp : c.proof = some p)
    (h1 : ¬(kt = str "ed25519" ∧ p.type = str "Ed25519Signature2020"))
    (h2 : ¬(kt = str "secp256k1" ∧ p.type = str "EcdsaSecp256k1Signature2019")) :
    verifyVerifiableCredential C c pk kt =
      { verified := false
        issuer := c.issuer.getD (str "")
        subject := c.credentialSubject.bind (assocGet (str "id"))
        issuanceDate := c.issuanceDate
        errors := some [str "Unsupported signature type or key mismatch",
          str "Invalid signature"] } := by
  simp [verifyVerifiableCredential, hsb, hpb, hp, h1, h2]

theorem verifyVC_ed_branch (C : CryptoPrimitives) (c : Credential) (pk kt : Str)
    (p : Proof) (hsb : credStructBad c = false) (hpb : credProofBad c = false)
    (hp : c.proof = some p) (hkt : kt = str "ed25519")
    (hpt : p.type = str "Ed25519Signature2020") :
    verifyVerifiableCredential C c pk kt =
      match C.ed25519Verify (base64Decode (p.proofValue.drop 1))
          (utf8Bytes (stringifyCore { c with proof := none })) (hexDecode pk) with
      | .error e => bestEffortResult c [str "Verification failed: " ++ e]
      | .ok v =>
        { verified := v
          issuer := c.issuer.getD (str "")
          subject := c.credentialSubject.bind (assocGet (str "id"))
          issuanceDate := c.issuanceDate
          errors := if v then none else some [str "Invalid signature"] } := by
  subst hkt
  cases hv : C.ed25519Verify (base64Decode (List.drop 1 p.proofValue))
      (utf8Bytes (stringifyCore { c with proof := none })) (hexDecode pk) with
  | error e =>
    simp [verifyVerifiableCredential, verifyEd25519, Except.map, hsb, hpb, hp,
      hpt, hv, -List.drop_one]
  | ok v =>
    cases v <;>
      simp [verifyVerifiableCredential, verifyEd25519, Except.map, hsb, hpb, hp,
        hpt, hv, -List.drop_one]

theorem verifyVC_secp_branch (C : CryptoPrimitives) (c : Credential) (pk kt : Str)
    (p : Proof) (hsb : credStructBad c = false) (hpb : credProofBad c = false)
    (hp : c.proof = some p) (hkt : kt = str "secp256k1")
    (hpt : p.type = str "EcdsaSecp256k1Signature2019") :
    verifyVerifiableCredential C c pk kt =
      match verifySecp256k1 C (base64Decode (p.proofValue.drop 1))
          (utf8Bytes (stringifyCore { c with proof := none })) (hexDecode pk) with
      | .error e => bestEffortResult c [str "Verification failed: " ++ e]
      | .ok v =>
        { verified := v
          issuer := c.issuer.getD (str "")
          subject := c.credentialSubject.bind (assocGet (str "id"))
          issuanceDate := c.issuanceDate
          errors := if v then none else some [str "Invalid signature"] } := by
  subst hkt
  have hne : ¬(str "secp256k1" = str "ed25519" ∧
      str "EcdsaSecp256k1Signature2019" = str "Ed25519Signature2020") := by decide
  cases hv : verifySecp256k1 C (base64Decode (List.drop 1 p.proofValue))
      (utf8Bytes (stringifyCore { c with proof := none })) (hexDecode pk) with
  | error e =>
    simp [verifyVerifiableCredential, Except.map, hsb, hpb, hp, hpt, hv, hne,
      -List.drop_one]
  | ok v =>
    cases v <;>
      simp [verifyVerifiableCredential, Except.map, hsb, hpb, hp, hpt, hv, hne,
      -List.drop_one]

/-- The canonical characters signed at issuance: the byte encoding of the
stringified unsigned credential. -/
def issueMessage (now uuid issuerDid subjectDid credentialType : Str)
    (claims : List (Str × Str)) : List Nat :=
  utf8Bytes (stringifyCore
    (unsignedCredential now uuid issuerDid subjectDid credentialType claims))

/-- `stringifyCore` never reads the proof field. -/
theorem stringifyCore_proof_irrel (c : Credential) (p : Option Proof) :
    stringifyCore { c with proof := p } = stringifyCore c := rfl

theorem issueVC_ed_eq (C : CryptoPrimitives)
    (now uuid issuerDid subjectDid credentialType : Str)
    (claims : List (Str × Str)) (privateKey : Str) :
    issueVerifiableCredential C now uuid issuerDid subjectDid credentialType
      claims privateKey (str "ed25519") =
    { unsignedCredential now uuid issuerDid subjectDid credentialType claims with
      proof := some {
        type := str "Ed25519Signature2020"
        created := now
        verificationMethod := issuerDid ++ '#' :: splitPart issuerDid 2
        proofPurpose := str "assertionMethod"
        proofValue := 'z' :: base64Encode (C.ed25519Sign
          (issueMessage now uuid issuerDid subjectDid credentialType claims)
          (hexDecode privateKey)) } } := by
  unfold issueVerifiableCredential issueMessage signEd25519
  simp

theorem issueVC_other_eq (C : CryptoPrimitives)
    (now uuid issuerDid subjectDid credentialType : Str)
    (claims : List (Str × Str)) (privateKey keyType : Str)
    (h : keyType ≠ str "ed25519") :
    issueVerifiableCredential C now uuid issuerDid subjectDid credentialType
      claims privateKey keyType =
    { unsignedCredential now uuid issuerDid subjectDid credentialType claims with
      proof := some {
        type := str "EcdsaSecp256k1Signature2019"
        created := now
        verificationMethod := issuerDid ++ '#' :: splitPart issuerDid 2
        proofPurpose := str "assertionMethod"
        proofValue := 'z' :: base64Encode (toCompactRawBytes (C.secp256k1Sign
          (issueMessage now uuid issuerDid subjectDid credentialType claims)
          (hexDecode privateKey))) } } := by
  unfold issueVerifiableCredential issueMessage signSecp256k1
  simp [h]

theorem credStructBad_unsigned_withProof
    (now uuid issuerDid subjectDid credentialType : Str)
    (claims : List (Str × Str)) (pr : Option Proof) (hIss : issuerDid ≠ []) :
    credStructBad { unsignedCredential now uuid issuerDid subjectDid
      credentialType claims with proof := pr } = false := by
  have h : issuerDid.isEmpty = false := List.isEmpty_eq_false.mpr hIss
  simp [credStructBad, unsignedCredential, h]

theorem natToBytesBE_lt (w v : Nat) : ∀ x ∈ natToBytesBE w v, x < 256 := by
  intro x hx
  unfold natToBytesBE at hx
  rw [digitsLE_eq_digits 256 v (by norm_num)] at hx
  rcases List.mem_append.mp hx with h | h
  · have := List.eq_of_mem_replicate h
    omega
  · exact Nat.digits_lt_base (by norm_num) (List.mem_reverse.mp h)

theorem toCompactRawBytes_lt (rs : Nat × Nat) : ∀ x ∈ toCompactRawBytes rs, x < 256 := by
  intro x hx
  rcases List.mem_append.mp hx with h | h <;> exact natToBytesBE_lt _ _ x h

/-- C1: for both supported schemes, whenever the issuer's key pair satisfies
the library's sign/verify round-trip guarantee (the property of every
freshly generated pair), running `issueVerifiableCredential` and passing the
unmodified credential to `verifyVerifiableCredential` with the issuer's
public key and scheme yields `verified = true`. -/
theorem C1_sign_verify_roundtrip (C : CryptoPrimitives)
    (now uuid issuerDid subjectDid credentialType : Str)
    (claims : List (Str × Str)) (privateKey issuerPublicKey keyType : Str)
    (hIss : issuerDid ≠ [])
    (hSigBytes : ∀ m k, ∀ x ∈ C.ed25519Sign m k, x < 256)
    (hEd : ∀ m, C.ed25519Verify (C.ed25519Sign m (hexDecode privateKey)) m
      (hexDecode issuerPublicKey) = .ok true)
    (hSecp : ∀ m, C.secp256k1Verify
      (toCompactRawBytes (C.secp256k1Sign m (hexDecode privateKey))) m
      (hexDecode issuerPublicKey) = .ok true)
    (hkt : keyType = str "ed25519" ∨ keyType = str "secp256k1") :
    (verifyVerifiableCredential C
      (issueVerifiableCredential C now uuid issuerDid subjectDid credentialType
        claims privateKey keyType)
      issuerPublicKey keyType).verified = true := by
  rcases hkt with hkt | hkt
  · subst hkt
    rw [issueVC_ed_eq]
    set sig := C.ed25519Sign
      (issueMessage now uuid issuerDid subjectDid credentialType claims)
      (hexDecode privateKey) with hsig
    set prf : Proof := {
      type := str "Ed25519Signature2020"
      created := now
      verificationMethod := issuerDid ++ '#' :: splitPart issuerDid 2
      proofPurpose := str "assertionMethod"
      proofValue := 'z' :: base64Encode sig } with hprf
    rw [verifyVC_ed_branch C
      { unsignedCredential now uuid issuerDid subjectDid credentialType claims
        with proof := some prf } issuerPublicKey (str "ed25519") prf
      (credStructBad_unsigned_withProof now uuid issuerDid subjectDid
        credentialType claims (some prf) hIss) rfl rfl rfl rfl]
    rw [show List.drop 1 prf.proofValue = base64Encode sig from rfl]
    rw [base64_roundtrip _ (hSigBytes _ _)]
    have hEd1 := hEd (issueMessage now uuid issuerDid subjectDid credentialType claims)
    simp only [issueMessage, unsignedCredential] at hEd1 ⊢
    rw [hEd1]
  · subst hkt
    rw [issueVC_other_eq C now uuid issuerDid subjectDid credentialType claims
      privateKey (str "secp256k1") (by decide)]
    set sig := toCompactRawBytes (C.secp256k1Sign
      (issueMessage now uuid issuerDid subjectDid credentialType claims)
      (hexDecode privateKey)) with hsig
    set prf : Proof := {
      type := str "EcdsaSecp256k1Signature2019"
      created := now
      verificationMethod := issuerDid ++ '#' :: splitPart issuerDid 2
      proofPurpose := str "assertionMethod"
      proofValue := 'z' :: base64Encode sig } with hprf
    rw [verifyVC_secp_branch C
      { unsignedCredential now uuid issuerDid subjectDid credentialType claims
        with proof := some prf } issuerPublicKey (str "secp256k1") prf
      (credStructBad_unsigned_withProof now uuid issuerDid subjectDid
        credentialType claims (some prf) hIss) rfl rfl rfl rfl]
    rw [show List.drop 1 prf.proofValue = base64Encode sig from rfl]
    rw [base64_roundtrip _ (by rw [hsig]; exact toCompactRawBytes_lt _)]
    have hSecp1 := hSecp (issueMessage now uuid issuerDid subjectDid credentialType claims)
    simp only [issueMessage, unsignedCredential] at hSecp1
    rw [hsig]
    simp only [issueMessage, unsignedCredential]
    simp [verifySecp256k1, hSecp1]

theorem credProofBad_false (c : Credential) (h : credProofBad c = false) :
    ∃ p, c.proof = some p ∧ p.proofValue ≠ [] := by
  cases hc : c.proof with
  | none => simp [credProofBad, hc] at h
  | some p =>
    simp only [credProofBad, hc] at h
    exact ⟨p, rfl, List.isEmpty_eq_false.mp h⟩

theorem bestEffortResult_spec (c : Credential) (errs : List Str) (hne : errs ≠ []) :
    ((bestEffortResult c errs).verified = true ↔ (bestEffortResult c errs).errors = none) ∧
    ((bestEffortResult c errs).verified = false →
      ∃ l, (bestEffortResult c errs).errors = some l ∧ l ≠ []) := by
  refine ⟨?_, fun _ => ⟨errs, rfl, hne⟩⟩
  simp [bestEffortResult]

/-- C9: for every input, the result of `verifyVerifiableCredential` has
`verified = true` exactly when the `errors` field is absent, and whenever
`verified = false` the errors list is present and non-empty. -/
theorem C9_verified_iff_no_errors (C : CryptoPrimitives) (c : Credential)
    (pk kt : Str) :
    ((verifyVerifiableCredential C c pk kt).verified = true ↔
      (verifyVerifiableCredential C c pk kt).errors = none) ∧
    ((verifyVerifiableCredential C c pk kt).verified = false →
      ∃ l, (verifyVerifiableCredential C c pk kt).errors = some l ∧ l ≠ []) := by
  by_cases hsb : credStructBad c = true
  · rw [verifyVC_early C c pk kt (Or.inl hsb)]
    apply bestEffortResult_spec
    simp [hsb]
  by_cases hpb : credProofBad c = true
  · rw [verifyVC_early C c pk kt (Or.inr hpb)]
    apply bestEffortResult_spec
    simp [hpb]
  have hsb' : credStructBad c = false := by
    cases h : credStructBad c
    · rfl
    · exact absurd h hsb
  have hpb' : credProofBad c = false := by
    cases h : credProofBad c
    · rfl
    · exact absurd h hpb
  obtain ⟨p, hp, _⟩ := credProofBad_false c hpb'
  by_cases h1 : kt = str "ed25519" ∧ p.type = str "Ed25519Signature2020"
  · rw [verifyVC_ed_branch C c pk kt p hsb' hpb' hp h1.1 h1.2]
    cases hv : C.ed25519Verify (base64Decode (List.drop 1 p.proofValue))
        (utf8Bytes (stringifyCore { c with proof := none })) (hexDecode pk) with
    | error e =>
      apply bestEffortResult_spec
      simp
    | ok v => cases v <;> simp
  by_cases h2 : kt = str "secp256k1" ∧ p.type = str "EcdsaSecp256k1Signature2019"
  · rw [verifyVC_secp_branch C c pk kt p hsb' hpb' hp h2.1 h2.2]
    cases hv : verifySecp256k1 C (base64Decode (List.drop 1 p.proofValue))
        (utf8Bytes (stringifyCore { c with proof := none })) (hexDecode pk) with
    | error e =>
      apply bestEffortResult_spec
      simp
    | ok v => cases v <;> simp
  rw [verifyVC_mismatch C c pk kt p hsb' hpb' hp h1 h2]
  simp

/-- The proof type the source derives from the issuer's key scheme
(ed25519 gives Ed25519Signature2020, secp256k1 gives
EcdsaSecp256k1Signature2019). -/
def expectedProofType (keyType : Str) : Str :=
  if keyType = str "ed25519" then str "Ed25519Signature2020"
  else str "EcdsaSecp256k1Signature2019"

/-- C3: for a structurally well-formed credential carrying a proof with a
non-empty proofValue, a declared proof.type that does not match the proof
type derived from the issuer's key scheme makes verification return
verified = false with the scheme-mismatch error, and no signature
verification computation is performed: the result is identical under every
crypto library. -/
theorem C3_scheme_mismatch (C C2 : CryptoPrimitives) (c : Credential)
    (pk kt : Str) (p : Proof)
    (hsb : credStructBad c = false) (hpb : credProofBad c = false)
    (hp : c.proof = some p)
    (_hkt : kt = str "ed25519" ∨ kt = str "secp256k1")
    (hmm : p.type ≠ expectedProofType kt) :
    (verifyVerifiableCredential C c pk kt).verified = false ∧
    (verifyVerifiableCredential C c pk kt).errors =
      some [str "Unsupported signature type or key mismatch",
        str "Invalid signature"] ∧
    verifyVerifiableCredential C c pk kt = verifyVerifiableCredential C2 c pk kt := by
  have hmm1 : ¬(kt = str "ed25519" ∧ p.type = str "Ed25519Signature2020") := by
    rintro ⟨hk, ht⟩
    apply hmm
    rw [hk, expectedProofType, if_pos rfl, ht]
  have hmm2 : ¬(kt = str "secp256k1" ∧
      p.type = str "EcdsaSecp256k1Signature2019") := by
    rintro ⟨hk, ht⟩
    apply hmm
    rw [hk, expectedProofType, if_neg (by decide), ht]
  rw [verifyVC_mismatch C c pk kt p hsb hpb hp hmm1 hmm2,
    verifyVC_mismatch C2 c pk kt p hsb hpb hp hmm1 hmm2]
  exact ⟨rfl, rfl, rfl⟩

/-- A crypto library that rejects every signature, used to witness that the
scheme-mismatch result does not depend on the library at all. -/
def rejectAllCrypto : CryptoPrimitives where
  ed25519Sign := fun _ _ => []
  ed25519Verify := fun _ _ _ => .ok false
  secp256k1Sign := fun _ _ => (0, 0)
  secp256k1Verify := fun _ _ _ => .ok false

/-- A concrete, structurally well-formed credential whose declared proof
type (Ecdsa) does not match an ed25519 issuer key. -/
def sampleMismatchCredential : Credential :=
  { contextField := some [str "ctx"]
    id := some (str "id1")
    type := some [str "VerifiableCredential"]
    issuer := some (str "i")
    issuanceDate := some (str "t")
    credentialSubject := some [(str "id", str "s")]
    proof := some {
      type := str "EcdsaSecp256k1Signature2019"
      created := str "t"
      verificationMethod := str "i#k"
      proofPurpose := str "assertionMethod"
      proofValue := str "zAA" } }

/-- Witness for C3 at a concrete mismatched credential. -/
theorem C3_scheme_mismatch_witness :
    (verifyVerifiableCredential trivialCrypto sampleMismatchCredential
      (str "") (str "ed25519")).verified = false ∧
    (verifyVerifiableCredential trivialCrypto sampleMismatchCredential
      (str "") (str "ed25519")).errors =
      some [str "Unsupported signature type or key mismatch",
        str "Invalid signature"] ∧
    verifyVerifiableCredential trivialCrypto sampleMismatchCredential
      (str "") (str "ed25519") =
    verifyVerifiableCredential rejectAllCrypto sampleMismatchCredential
      (str "") (str "ed25519") :=
  C3_scheme_mismatch trivialCrypto rejectAllCrypto sampleMismatchCredential
    (str "") (str "ed25519") _ (by decide) (by decide) rfl (Or.inl rfl) (by decide)

/-- Witness for C1: the full issue-then-verify round trip evaluated at a
concrete input for the ed25519 scheme. -/
theorem C1_sign_verify_roundtrip_witness :
    (verifyVerifiableCredential trivialCrypto
      (issueVerifiableCredential trivialCrypto (str "t") (str "u") (str "i")
        (str "s") (str "T") [] (str "") (str "ed25519"))
      (str "") (str "ed25519")).verified = true :=
  C1_sign_verify_roundtrip trivialCrypto (str "t") (str "u") (str "i") (str "s")
    (str "T") [] (str "") (str "") (str "ed25519")
    (by decide)
    (fun m k x hx => by
      have := List.eq_of_mem_replicate hx
      omega)
    (fun m => by simp [trivialCrypto])
    (fun m => by simp [trivialCrypto])
    (Or.inl rfl)

/-- C7: a credential whose proof block is absent or whose proofValue is the
empty string yields verified = false with the missing-proof error, and the
result still carries the issuer, subject and issuanceDate extracted
best-effort from the payload. -/
theorem C7_missing_proof (C : CryptoPrimitives) (c : Credential) (pk kt : Str)
    (h : c.proof = none ∨ ∃ p, c.proof = some p ∧ p.proofValue = []) :
    (verifyVerifiableCredential C c pk kt).verified = false ∧
    str "Missing or invalid proof" ∈
      ((verifyVerifiableCredential C c pk kt).errors.getD []) ∧
    (verifyVerifiableCredential C c pk kt).issuer = c.issuer.getD (str "") ∧
    (verifyVerifiableCredential C c pk kt).subject =
      some ((c.credentialSubject.bind (assocGet (str "id"))).getD (str "")) ∧
    (verifyVerifiableCredential C c pk kt).issuanceDate =
      some (c.issuanceDate.getD (str "")) := by
  have hpb : credProofBad c = true := by
    rcases h with h | ⟨p, hp, hv⟩
    · simp [credProofBad, h]
    · simp [credProofBad, hp, hv]
  rw [verifyVC_early C c pk kt (Or.inr hpb)]
  refine ⟨rfl, ?_, rfl, rfl, rfl⟩
  by_cases hsb : credStructBad c = true <;> simp [bestEffortResult, hsb, hpb]

/-- A concrete, otherwise well-formed credential with no proof block. -/
def sampleNoProofCredential : Credential :=
  { contextField := some [str "ctx"]
    id := some (str "id1")
    type := some [str "VerifiableCredential"]
    issuer := some (str "i")
    issuanceDate := some (str "t")
    credentialSubject := some [(str "id", str "s")]
    proof := none }

/-- Witness for C7 at a concrete credential lacking its proof. -/
theorem C7_missing_proof_witness :
    (verifyVerifiableCredential trivialCrypto sampleNoProofCredential
      (str "") (str "ed25519")).verified = false ∧
    str "Missing or invalid proof" ∈
      ((verifyVerifiableCredential trivialCrypto sampleNoProofCredential
        (str "") (str "ed25519")).errors.getD []) ∧
    (verifyVerifiableCredential trivialCrypto sampleNoProofCredential
      (str "") (str "ed25519")).issuer =
      sampleNoProofCredential.issuer.getD (str "") ∧
    (verifyVerifiableCredential trivialCrypto sampleNoProofCredential
      (str "") (str "ed25519")).subject =
      some ((sampleNoProofCredential.credentialSubject.bind
        (assocGet (str "id"))).getD (str "")) ∧
    (verifyVerifiableCredential trivialCrypto sampleNoProofCredential
      (str "") (str "ed25519")).issuanceDate =
      some (sampleNoProofCredential.issuanceDate.getD (str "")) :=
  C7_missing_proof trivialCrypto sampleNoProofCredential (str "") (str "ed25519")
    (Or.inl rfl)

/-- A concrete credential with two problems at once: a structural defect
(missing context key) and a scheme-mismatched proof type. -/
def sampleTwoProblemCredential : Credential :=
  { contextField := none
    id := some (str "id1")
    type := some [str "VerifiableCredential"]
    issuer := some (str "i")
    issuanceDate := some (str "t")
    credentialSubject := some [(str "id", str "s")]
    proof := some {
      type := str "EcdsaSecp256k1Signature2019"
      created := str "t"
      verificationMethod := str "i#k"
      proofPurpose := str "assertionMethod"
      proofValue := str "zAA" } }

/-- C6 counterexample: a single call does not accumulate every problem
present. This credential has both a structural defect and a scheme-mismatch
problem, yet the returned error list holds only the structural error — the
scheme mismatch (and the signature check) are never reported. -/
theorem C6_counterexample :
    (verifyVerifiableCredential trivialCrypto sampleTwoProblemCredential
      (str "") (str "ed25519")).errors =
      some [str "Invalid credential structure"] ∧
    (∃ p, sampleTwoProblemCredential.proof = some p ∧
      p.type ≠ expectedProofType (str "ed25519")) := by
  constructor
  · decide
  · exact ⟨_, rfl, by decide⟩

/-- C6 amended: problems are accumulated within two stages. Structural and
missing-proof defects are accumulated together, and when either is present
the call returns them without any scheme or signature checking; otherwise
the scheme-mismatch and invalid-signature errors are accumulated together. -/
theorem C6_two_stage_accumulation (C : CryptoPrimitives) (c : Credential)
    (pk kt : Str) :
    (credStructBad c = true → credProofBad c = true →
      (verifyVerifiableCredential C c pk kt).errors =
        some [str "Invalid credential structure",
          str "Missing or invalid proof"]) ∧
    (∀ p, credStructBad c = false → credProofBad c = false →
      c.proof = some p → p.type ≠ expectedProofType kt →
      (verifyVerifiableCredential C c pk kt).errors =
        some [str "Unsupported signature type or key mismatch",
          str "Invalid signature"]) := by
  constructor
  · intro h1 h2
    rw [verifyVC_early C c pk kt (Or.inl h1)]
    simp [bestEffortResult, h1, h2]
  · intro p hsb hpb hp hmm
    have hmm1 : ¬(kt = str "ed25519" ∧ p.type = str "Ed25519Signature2020") := by
      rintro ⟨hk, ht⟩
      apply hmm
      rw [hk, expectedProofType, if_pos rfl, ht]
    have hmm2 : ¬(kt = str "secp256k1" ∧
        p.type = str "EcdsaSecp256k1Signature2019") := by
      rintro ⟨hk, ht⟩
      apply hmm
      rw [hk, expectedProofType, if_neg (by decide), ht]
    rw [verifyVC_mismatch C c pk kt p hsb hpb hp hmm1 hmm2]

/-- A concrete credential failing both first-stage checks: no context key
and no proof block. -/
def sampleBothBadCredential : Credential :=
  { contextField := none
    id := some (str "id1")
    type := some [str "VerifiableCredential"]
    issuer := some (str "i")
    issuanceDate := some (str "t")
    credentialSubject := some [(str "id", str "s")]
    proof := none }

/-- Witness for the amended C6: both stages evaluated at concrete inputs. -/
theorem C6_two_stage_accumulation_witness :
    (verifyVerifiableCredential trivialCrypto sampleBothBadCredential
      (str "") (str "ed25519")).errors =
      some [str "Invalid credential structure",
        str "Missing or invalid proof"] ∧
    (verifyVerifiableCredential trivialCrypto sampleMismatchCredential
      (str "") (str "ed25519")).errors =
      some [str "Unsupported signature type or key mismatch",
        str "Invalid signature"] :=
  ⟨(C6_two_stage_accumulation trivialCrypto sampleBothBadCredential
      (str "") (str "ed25519")).1 (by decide) (by decide),
    (C6_two_stage_accumulation trivialCrypto sampleMismatchCredential
      (str "") (str "ed25519")).2 _ (by decide) (by decide) rfl (by decide)⟩

set_option maxRecDepth 8000 in
/-- C2 counterexample: issuance with the unknown scheme tag "foo" does not
fail with any UnsupportedKeyType error — the embedding is total and the
source's else branch signs with the secp256k1 primitive, returning a fully
signed credential with the Ecdsa proof type. -/
theorem C2_counterexample :
    (issueVerifiableCredential trivialCrypto (str "t") (str "u") (str "i")
      (str "s") (str "T") [] (str "") (str "foo")).proof =
    some {
      type := str "EcdsaSecp256k1Signature2019"
      created := str "t"
      verificationMethod := str "i#undefined"
      proofPurpose := str "assertionMethod"
      proofValue := 'z' :: base64Encode (toCompactRawBytes (1, 2)) } := by
  rw [issueVC_other_eq trivialCrypto (str "t") (str "u") (str "i") (str "s")
    (str "T") [] (str "") (str "foo") (by decide)]
  decide

/-- C2 amended: issuance has no UnsupportedKeyType failure path. Every
scheme tag other than ed25519 — secp256k1 and unknown tags alike — is
dispatched to the secp256k1 signer and yields a signed credential carrying
the EcdsaSecp256k1Signature2019 proof type. -/
theorem C2_no_unsupported_error (C : CryptoPrimitives)
    (now uuid issuerDid subjectDid credentialType : Str)
    (claims : List (Str × Str)) (privateKey keyType : Str)
    (h : keyType ≠ str "ed25519") :
    (issueVerifiableCredential C now uuid issuerDid subjectDid credentialType
      claims privateKey keyType).proof =
    some {
      type := str "EcdsaSecp256k1Signature2019"
      created := now
      verificationMethod := issuerDid ++ '#' :: splitPart issuerDid 2
      proofPurpose := str "assertionMethod"
      proofValue := 'z' :: base64Encode (signSecp256k1 C
        (issueMessage now uuid issuerDid subjectDid credentialType claims)
        (hexDecode privateKey)) } := by
  rw [issueVC_other_eq C now uuid issuerDid subjectDid credentialType claims
    privateKey keyType h]
  rfl

/-- Witness for the amended C2 at the concrete unknown tag "foo". -/
theorem C2_no_unsupported_error_witness :
    str "foo" ≠ str "ed25519" ∧
    (issueVerifiableCredential trivialCrypto (str "t") (str "u") (str "i")
      (str "s") (str "T") [] (str "") (str "foo")).proof =
    some {
      type := str "EcdsaSecp256k1Signature2019"
      created := str "t"
      verificationMethod := str "i" ++ '#' :: splitPart (str "i") 2
      proofPurpose := str "assertionMethod"
      proofValue := 'z' :: base64Encode (signSecp256k1 trivialCrypto
        (issueMessage (str "t") (str "u") (str "i") (str "s") (str "T") [])
        (hexDecode (str ""))) } :=
  ⟨by decide,
    C2_no_unsupported_error trivialCrypto (str "t") (str "u") (str "i") (str "s")
      (str "T") [] (str "") (str "foo") (by decide)⟩

/-- C4: the secp256k1 verification wrapper can never raise — any library
outcome is folded into a returned boolean — but crypto.ts's verifyEd25519
forwards the noble call unprotected, so with noble's documented input
validation a malformed zero-length signature propagates an exception instead
of producing the value false. -/
theorem C4_verify_never_throws :
    (∀ (C : CryptoPrimitives) (sig msg pk : List Nat),
      ∃ b, verifySecp256k1 C sig msg pk = .ok b) ∧
    verifyEd25519
      { trivialCrypto with ed25519Verify := nobleEd25519Verify fun _ _ _ => false }
      [] [] [] = .error (str "signature expected 64 bytes") := by
  constructor
  · intro C sig msg pk
    unfold verifySecp256k1
    cases C.secp256k1Verify sig msg pk with
    | ok b => exact ⟨b, rfl⟩
    | error e => exact ⟨false, rfl⟩
  · rfl

theorem multicodecTag_lt (keyType : Str) : ∀ x ∈ multicodecTag keyType, x < 256 := by
  intro x hx
  unfold multicodecTag at hx
  split at hx <;> simp at hx <;> omega

theorem multicodecTag_length (keyType : Str) : (multicodecTag keyType).length = 2 := by
  unfold multicodecTag
  split <;> rfl

theorem generateDidKey_did (keyType : Str) (publicKey : List Nat) :
    (generateDidKey keyType publicKey).did =
      str "did:key:" ++ 'z' :: base58Chars (multicodecTag keyType ++ publicKey) := rfl

theorem generateDidKey_multibase (keyType : Str) (publicKey : List Nat) :
    (generateDidKey keyType publicKey).publicKeyMultibase =
      'z' :: base58Chars (multicodecTag keyType ++ publicKey) := rfl

theorem tagged_bytes_lt (keyType : Str) (publicKey : List Nat)
    (h : ∀ x ∈ publicKey, x < 256) :
    ∀ x ∈ multicodecTag keyType ++ publicKey, x < 256 := by
  intro x hx
  rcases List.mem_append.mp hx with h1 | h1
  · exact multicodecTag_lt keyType x h1
  · exact h x h1

/-- C5: DID encoding is deterministic (a pure function of the key bytes),
injective on the public key bytes across both schemes, and the multibase
portion of the DID decodes back to the original public key bytes. -/
theorem C5_did_deterministic_injective (kt1 kt2 : Str) (pk1 pk2 : List Nat)
    (h1 : ∀ x ∈ pk1, x < 256) (h2 : ∀ x ∈ pk2, x < 256) :
    (generateDidKey kt1 pk1).did = (generateDidKey kt1 pk1).did ∧
    (pk1 ≠ pk2 → (generateDidKey kt1 pk1).did ≠ (generateDidKey kt2 pk2).did) ∧
    didKeyDecode (generateDidKey kt1 pk1).publicKeyMultibase = some pk1 := by
  refine ⟨rfl, ?_, ?_⟩
  · intro hne heq
    rw [generateDidKey_did, generateDidKey_did] at heq
    have heq2 := (List.append_right_inj (str "did:key:")).mp heq
    have heq3 : base58Chars (multicodecTag kt1 ++ pk1) =
        base58Chars (multicodecTag kt2 ++ pk2) := List.cons.inj heq2 |>.2
    have heq4 := base58Chars_injective _ _
      (tagged_bytes_lt kt1 pk1 h1) (tagged_bytes_lt kt2 pk2 h2) heq3
    have hlen : (multicodecTag kt1).length = (multicodecTag kt2).length := by
      rw [multicodecTag_length, multicodecTag_length]
    exact hne (List.append_inj heq4 hlen).2
  · rw [generateDidKey_multibase]
    unfold didKeyDecode
    rw [show List.drop 1 ('z' :: base58Chars (multicodecTag kt1 ++ pk1)) =
      base58Chars (multicodecTag kt1 ++ pk1) from rfl]
    rw [base58_roundtrip _ (tagged_bytes_lt kt1 pk1 h1), Option.map_some']
    rw [show (2 : Nat) = (multicodecTag kt1).length from
      (multicodecTag_length kt1).symm]
    rw [List.drop_left]

/-- Witness for C5 at concrete distinct keys under the two schemes. -/
theorem C5_did_deterministic_injective_witness :
    ((generateDidKey (str "ed25519") [1]).did =
      (generateDidKey (str "ed25519") [1]).did ∧
    ([1] ≠ [2] → (generateDidKey (str "ed25519") [1]).did ≠
      (generateDidKey (str "secp256k1") [2]).did) ∧
    didKeyDecode (generateDidKey (str "ed25519") [1]).publicKeyMultibase =
      some [1]) ∧
    (generateDidKey (str "ed25519") [1]).did ≠
      (generateDidKey (str "secp256k1") [2]).did :=
  ⟨C5_did_deterministic_injective (str "ed25519") (str "secp256k1") [1] [2]
      (by decide) (by decide),
    (C5_did_deterministic_injective (str "ed25519") (str "secp256k1") [1] [2]
      (by decide) (by decide)).2.1 (by decide)⟩

theorem digits_length_le_of_lt (b : Nat) (hb : 2 ≤ b) :
    ∀ (k n : Nat), n < b ^ k → (Nat.digits b n).length ≤ k := by
  intro k
  induction k with
  | zero =>
    intro n hn
    have : n = 0 := by simpa using hn
    simp [this]
  | succ k ih =>
    intro n hn
    by_cases h0 : n = 0
    · simp [h0]
    · rw [Nat.digits_def' (by omega) (Nat.pos_of_ne_zero h0)]
      have hdiv : n / b < b ^ k := by
        rw [Nat.div_lt_iff_lt_mul (by omega)]
        calc n < b ^ (k + 1) := hn
        _ = b ^ k * b := by rw [pow_succ]
      simpa using ih (n / b) hdiv

theorem natToBytesBE_length (w v : Nat) (h : v < 256 ^ w) :
    (natToBytesBE w v).length = w := by
  unfold natToBytesBE
  rw [digitsLE_eq_digits 256 v (by norm_num)]
  have hlen : (Nat.digits 256 v).length ≤ w :=
    digits_length_le_of_lt 256 (by norm_num) w v h
  simp only [List.length_append, List.length_replicate, List.length_reverse]
  omega

theorem toCompactRawBytes_length (rs : Nat × Nat)
    (h1 : rs.1 < 2 ^ 256) (h2 : rs.2 < 2 ^ 256) :
    (toCompactRawBytes rs).length = 64 := by
  have hpow : (256 : Nat) ^ 32 = 2 ^ 256 := by norm_num
  unfold toCompactRawBytes
  rw [List.length_append, natToBytesBE_length 32 rs.1 (by omega),
    natToBytesBE_length 32 rs.2 (by omega)]

/-- C8: every issued credential's proofValue is the character z followed by
the standard base64 encoding of the raw signature bytes, and in the
secp256k1 dispatch those bytes are the fixed-length 64-byte compact r and s
encoding (given the library's 256-bit signature components), not a
variable-length one. -/
theorem C8_proofValue_encoding (C : CryptoPrimitives)
    (now uuid issuerDid subjectDid credentialType : Str)
    (claims : List (Str × Str)) (privateKey keyType : Str)
    (hrs : ∀ m k, (C.secp256k1Sign m k).1 < 2 ^ 256 ∧
      (C.secp256k1Sign m k).2 < 2 ^ 256) :
    ((issueVerifiableCredential C now uuid issuerDid subjectDid credentialType
        claims privateKey keyType).proof.map Proof.proofValue) =
      some ('z' :: base64Encode (if keyType = str "ed25519"
        then signEd25519 C
          (issueMessage now uuid issuerDid subjectDid credentialType claims)
          (hexDecode privateKey)
        else signSecp256k1 C
          (issueMessage now uuid issuerDid subjectDid credentialType claims)
          (hexDecode privateKey))) ∧
    (keyType ≠ str "ed25519" →
      (signSecp256k1 C
        (issueMessage now uuid issuerDid subjectDid credentialType claims)
        (hexDecode privateKey)).length = 64) := by
  constructor
  · by_cases h : keyType = str "ed25519"
    · rw [h, issueVC_ed_eq, if_pos rfl]
      rfl
    · rw [issueVC_other_eq C now uuid issuerDid subjectDid credentialType claims
        privateKey keyType h, if_neg h]
      rfl
  · intro _
    unfold signSecp256k1
    exact toCompactRawBytes_length _ (hrs _ _).1 (hrs _ _).2

/-- Witness for C8 at a concrete secp256k1 issuance. -/
theorem C8_proofValue_encoding_witness :
    ((issueVerifiableCredential trivialCrypto (str "t") (str "u") (str "i")
        (str "s") (str "T") [] (str "") (str "secp256k1")).proof.map
        Proof.proofValue) =
      some ('z' :: base64Encode (if str "secp256k1" = str "ed25519"
        then signEd25519 trivialCrypto
          (issueMessage (str "t") (str "u") (str "i") (str "s") (str "T") [])
          (hexDecode (str ""))
        else signSecp256k1 trivialCrypto
          (issueMessage (str "t") (str "u") (str "i") (str "s") (str "T") [])
          (hexDecode (str "")))) ∧
    (str "secp256k1" ≠ str "ed25519" →
      (signSecp256k1 trivialCrypto
        (issueMessage (str "t") (str "u") (str "i") (str "s") (str "T") [])
        (hexDecode (str ""))).length = 64) :=
  C8_proofValue_encoding trivialCrypto (str "t") (str "u") (str "i") (str "s")
    (str "T") [] (str "") (str "secp256k1")
    (fun m k => ⟨by norm_num [trivialCrypto], by norm_num [trivialCrypto]⟩)

theorem assocGet_setKey_same (k v : Str) :
    ∀ l : List (Str × Str), assocGet k (setKey k v l) = some v
  | [] => by simp [setKey, assocGet]
  | (k1, v1) :: t => by
    by_cases hk : k1 = k
    · simp [setKey, hk, assocGet]
    · simp [setKey, hk, assocGet, assocGet_setKey_same k v t]

theorem assocGet_setKey_other (k k2 v : Str) (h : k2 ≠ k) :
    ∀ l : List (Str × Str), assocGet k (setKey k2 v l) = assocGet k l
  | [] => by simp [setKey, assocGet, h]
  | (k1, v1) :: t => by
    by_cases hk : k1 = k2
    · subst hk
      simp [setKey, assocGet, h]
    · simp only [setKey, if_neg hk, assocGet]
      by_cases hk1 : k1 = k
      · simp [hk1]
      · simp [hk1, assocGet_setKey_other k k2 v h t]

theorem assocGet_append (k : Str) :
    ∀ l1 l2 : List (Str × Str),
      assocGet k (l1 ++ l2) = (assocGet k l1).or (assocGet k l2)
  | [], l2 => by simp [assocGet]
  | (k1, v1) :: t, l2 => by
    by_cases hk : k1 = k
    · simp [assocGet, hk]
    · simp [assocGet, hk, assocGet_append k t l2]

theorem assocGet_spreadInto (k : Str) :
    ∀ claims base : List (Str × Str),
      assocGet k (spreadInto base claims) =
        (assocGet k claims.reverse).or (assocGet k base)
  | [], base => by simp [spreadInto, assocGet]
  | (k1, v1) :: t, base => by
    rw [spreadInto, assocGet_spreadInto k t (setKey k1 v1 base),
      List.reverse_cons, assocGet_append]
    by_cases hk : k1 = k
    · rw [hk, assocGet_setKey_same,
        show assocGet k [(k, v1)] = some v1 from by simp [assocGet]]
      cases assocGet k t.reverse <;> rfl
    · rw [assocGet_setKey_other k k1 v1 hk,
        show assocGet k [(k1, v1)] = none from by simp [assocGet, hk],
        Option.or_none]

theorem assocGet_eq_none_iff (k : Str) :
    ∀ l : List (Str × Str), assocGet k l = none ↔ ∀ p ∈ l, p.1 ≠ k
  | [] => by simp [assocGet]
  | (k1, v1) :: t => by
    by_cases hk : k1 = k
    · simp [assocGet, hk]
    · simp [assocGet, hk, assocGet_eq_none_iff k t]

theorem assocGet_reverse_of_nodup (k : Str) :
    ∀ l : List (Str × Str), (l.map Prod.fst).Nodup →
      assocGet k l.reverse = assocGet k l
  | [], _ => rfl
  | (k1, v1) :: t, h => by
    simp only [List.map_cons, List.nodup_cons, List.mem_map] at h
    obtain ⟨hk1, hnd⟩ := h
    rw [List.reverse_cons, assocGet_append,
      assocGet_reverse_of_nodup k t hnd]
    by_cases hk : k1 = k
    · have hnone : assocGet k t = none := by
        rw [assocGet_eq_none_iff]
        intro p hp hpk
        exact hk1 ⟨p, hp, by rw [hpk, hk]⟩
      rw [hnone, Option.none_or,
        show assocGet k ((k1, v1) :: t) = some v1 from by simp [assocGet, hk],
        show assocGet k [(k1, v1)] = some v1 from by simp [assocGet, hk]]
    · rw [show assocGet k ((k1, v1) :: t) = assocGet k t from by
        simp [assocGet, hk],
        show assocGet k [(k1, v1)] = none from by simp [assocGet, hk],
        Option.or_none]

/-- C10: when the caller-supplied claims object carries an "id" key, the
issued credential's credentialSubject.id is the claims' "id" value,
overriding the subjectDid parameter; without an "id" key it is subjectDid.
(JavaScript object keys are unique, hence the Nodup hypothesis.) -/
theorem C10_claims_id_override (C : CryptoPrimitives)
    (now uuid issuerDid subjectDid credentialType : Str)
    (claims : List (Str × Str)) (privateKey keyType : Str)
    (hnd : (claims.map Prod.fst).Nodup) :
    (∀ v, assocGet (str "id") claims = some v →
      ((issueVerifiableCredential C now uuid issuerDid subjectDid
        credentialType claims privateKey keyType).credentialSubject.bind
        (assocGet (str "id"))) = some v) ∧
    (assocGet (str "id") claims = none →
      ((issueVerifiableCredential C now uuid issuerDid subjectDid
        credentialType claims privateKey keyType).credentialSubject.bind
        (assocGet (str "id"))) = some subjectDid) := by
  have hsub : (issueVerifiableCredential C now uuid issuerDid subjectDid
      credentialType claims privateKey keyType).credentialSubject =
      some (spreadInto [(str "id", subjectDid)] claims) := rfl
  rw [hsub]
  have hmain : assocGet (str "id") (spreadInto [(str "id", subjectDid)] claims) =
      (assocGet (str "id") claims).or (some subjectDid) := by
    rw [assocGet_spreadInto, assocGet_reverse_of_nodup _ _ hnd]
    have hbase : assocGet (str "id") [(str "id", subjectDid)] = some subjectDid := by
      simp [assocGet]
    rw [hbase]
  constructor
  · intro v hv
    show assocGet (str "id") (spreadInto [(str "id", subjectDid)] claims) = some v
    rw [hmain, hv]
    rfl
  · intro hv
    show assocGet (str "id") (spreadInto [(str "id", subjectDid)] claims) =
      some subjectDid
    rw [hmain, hv]
    rfl

/-- Witness for C10: a claims object with an "id" key overrides the subject
DID, and one without it keeps the subject DID. -/
theorem C10_claims_id_override_witness :
    ((issueVerifiableCredential trivialCrypto (str "t") (str "u") (str "i")
      (str "s") (str "T") [(str "id", str "X")] (str "")
      (str "ed25519")).credentialSubject.bind (assocGet (str "id"))) =
      some (str "X") ∧
    ((issueVerifiableCredential trivialCrypto (str "t") (str "u") (str "i")
      (str "s") (str "T") [(str "name", str "Ada")] (str "")
      (str "ed25519")).credentialSubject.bind (assocGet (str "id"))) =
      some (str "s") :=
  ⟨(C10_claims_id_override trivialCrypto (str "t") (str "u") (str "i") (str "s")
      (str "T") [(str "id", str "X")] (str "") (str "ed25519") (by decide)).1
      (str "X") (by decide),
    (C10_claims_id_override trivialCrypto (str "t") (str "u") (str "i") (str "s")
      (str "T") [(str "name", str "Ada")] (str "") (str "ed25519")
      (by decide)).2 (by decide)⟩
